import Mathlib

/-!
Shallow embedding of `src/video.py` (`images_to_video`) and verification of
its specification.

The Python function takes a directory listing, filters it to files with a
recognized image extension, sorts lexicographically, resolves a codec from
the output extension (unless one is given explicitly), and writes one frame
per image to a video writer.  We model the filesystem listing as a
`List String`, the image decoder `cv2.imread` as an abstract function
`decode : String → Frame`, the `.shape` attribute as
`shape : Frame → Nat × Nat × Nat` (height, width, channels), and the
observable side effects (`os.makedirs`, `cv2.VideoWriter`, `out.write`,
`out.release`) as an ordered trace of `Effect`s.  The function returns the
trace of effects it performed together with its outcome
(`Except VideoError Unit`), mirroring the straight-line control flow:
both exceptions in the source are raised before any effectful call.
-/

namespace VideoPy

/-- Python string comparison on the underlying characters: lexicographic
by Unicode code point (`Char.toNat`).  This models `str.__lt__` as used by
`sorted`. -/
def charListLt : List Char → List Char → Bool
  | [], [] => false
  | [], _ :: _ => true
  | _ :: _, [] => false
  | a :: as, b :: bs =>
    if a.toNat < b.toNat then true
    else if b.toNat < a.toNat then false
    else charListLt as bs

/-- `a < b` for Python strings, by code point. -/
def pyStrLt (a b : String) : Bool := charListLt a.data b.data

/-- `a <= b` for Python strings, i.e. not `b < a`. -/
abbrev pyLe (a b : String) : Prop := pyStrLt b a = false

/-- `sorted` on a list of Python strings: a stable sort by the code-point
order.  We use insertion sort; for a total, transitive, antisymmetric
order the sorted result is unique, so this agrees with Python sort. -/
def sortStrings (l : List String) : List String := List.insertionSort pyLe l

/-- Models Python `str.lower` (ASCII range, which covers every extension
the program compares against). -/
def pyToLower (s : String) : String := ⟨s.data.map Char.toLower⟩

/-- Index of the last occurrence of a dot character in a list of
characters, if any. -/
def lastDotIdx : List Char → Option Nat
  | [] => none
  | c :: cs =>
    match lastDotIdx cs with
    | some i => some (i + 1)
    | none => if c = '.' then some 0 else none

/-- Models `os.path.splitext` for a plain filename (a `os.listdir` entry,
which contains no path separator): split at the last dot, unless every
character before that dot is itself a dot (leading dots of the filename
are not an extension separator). -/
def splitext (p : String) : String × String :=
  let cs := p.data
  match lastDotIdx cs with
  | none => (p, "")
  | some i =>
    if (cs.take i).all (fun c => c = '.') then (p, "")
    else (⟨cs.take i⟩, ⟨cs.drop i⟩)

/-- The path components of a (relative) path string, as produced by
`pathlib.PurePosixPath` parsing: split on the separator, dropping empty
segments and single-dot segments. -/
def pathParts (p : String) : List (List Char) :=
  (p.data.splitOn '/').filter (fun s => !(s.isEmpty || s == ['.']))

/-- Models `pathlib.Path.name` for a relative path: the final component,
or the empty string if there is none. -/
def pathName (p : String) : String :=
  match (pathParts p).getLast? with
  | none => ""
  | some s => ⟨s⟩

/-- Models `pathlib.Path.suffix`: the extension of the final component.
A dot at position 0 (hidden file) or at the very end yields no suffix. -/
def pathSuffix (p : String) : String :=
  let name := (pathName p).data
  match lastDotIdx name with
  | none => ""
  | some i => if 0 < i ∧ i + 1 < name.length then ⟨name.drop i⟩ else ""

/-- Joins path components with the separator. -/
def joinParts : List (List Char) → List Char
  | [] => []
  | [s] => s
  | s :: rest => s ++ '/' :: joinParts rest

/-- Models `pathlib.Path.parent` for a relative path: all components but
the last, or `"."` when there is at most one component. -/
def pathParent (p : String) : String :=
  match (pathParts p).dropLast with
  | [] => "."
  | ps => ⟨joinParts ps⟩

/-- The `CV_IMAGE_FORMAT` list from `video.py`, transcribed exactly.  In
the source the literals `".jp2"` and `".png"` are adjacent with no comma
between them, so Python concatenates them into the single element
`".jp2.png"`; and the entries `"pgm"`, `"ppm"`, `"pxm"`, `"pnm"` are
written without a leading dot. -/
def CV_IMAGE_FORMAT : List String :=
  [".bmp", ".dib",
   ".jpe", ".jpeg", ".jpg",
   ".jp2.png",
   ".webp",
   ".pbm", "pgm", "ppm", "pxm", "pnm",
   ".pfm",
   ".sr", ".ras",
   ".tiff", ".tif",
   ".exr",
   ".hdr", ".pic"]

/-- The `DEFAULT_CODEC` table from `video.py`. -/
def DEFAULT_CODEC : List (String × String) :=
  [(".avi", "divx"),
   (".flv", "flv1"),
   (".mkv", "fmp4"),
   (".mov", "mp4v"),
   (".mp4", "mp4v"),
   (".wmp", "wmv2")]

/-- The filter of the list comprehension:
`os.path.splitext(f)[1].lower() in CV_IMAGE_FORMAT`. -/
def isImageFile (f : String) : Bool :=
  CV_IMAGE_FORMAT.contains (pyToLower (splitext f).2)

/-- `input_files`: the directory listing, sorted, keeping only recognized
image files. -/
def input_files_of (listing : List String) : List String :=
  (sortStrings listing).filter isImageFile

/-- The two exceptions `images_to_video` raises itself. -/
inductive VideoError where
  | fileNotFound (msg : String)
  | valueError (msg : String)
deriving DecidableEq, Repr

/-- Codec resolution: an explicit codec is used as given; otherwise the
output extension (lower-cased `Path(output_path).suffix`) is looked up in
`DEFAULT_CODEC`, and a missing entry raises `ValueError`. -/
def resolve_codec (output_path : String) (codec : Option String) :
    Except VideoError String :=
  match codec with
  | some c => Except.ok c
  | none =>
    let extension := pathSuffix output_path
    match DEFAULT_CODEC.lookup (pyToLower extension) with
    | some c => Except.ok c
    | none =>
      Except.error (.valueError ("Unsupported file extension name: " ++ extension))

/-- An observable side effect of `images_to_video`, in program order. -/
inductive Effect (Frame : Type) where
  | makedirs (dir : String)
  | openWriter (path codec : String) (fps : Nat) (size : Nat × Nat)
  | writeFrame (f : Frame)
  | release
deriving DecidableEq

/-- Shallow embedding of `images_to_video`.  `listing` is what
`os.listdir(input_path)` returns, `decode` models `cv2.imread` (assumed to
succeed, as on the claims' successful runs), `shape` models `frame.shape`.
Returns the ordered effect trace and the outcome. -/
def images_to_video {Frame : Type} (decode : String → Frame)
    (shape : Frame → Nat × Nat × Nat) (listing : List String)
    (input_path : String) (output_path : String) (fps : Nat)
    (codec : Option String) :
    List (Effect Frame) × Except VideoError Unit :=
  match input_files_of listing with
  | [] =>
    ([], Except.error (.fileNotFound ("No image sequence in path: " ++ input_path)))
  | f0 :: rest =>
    match resolve_codec output_path codec with
    | Except.error e => ([], Except.error e)
    | Except.ok c =>
      let fr0 := decode (input_path ++ "/" ++ f0)
      let sh := shape fr0
      (Effect.makedirs (pathParent output_path) ::
       Effect.openWriter output_path c fps (sh.2.1, sh.1) ::
       Effect.writeFrame fr0 ::
       (rest.map (fun f => Effect.writeFrame (decode (input_path ++ "/" ++ f))) ++
        [Effect.release]),
       Except.ok ())

/-- The frames written to the video output, in order, read off the effect
trace. -/
def framesWritten {Frame : Type} : List (Effect Frame) → List Frame
  | [] => []
  | Effect.writeFrame f :: es => f :: framesWritten es
  | _ :: es => framesWritten es

/-- The codecs passed to `cv2.VideoWriter` in the effect trace. -/
def openedCodecs {Frame : Type} : List (Effect Frame) → List String
  | [] => []
  | Effect.openWriter _ c _ _ :: es => c :: openedCodecs es
  | _ :: es => openedCodecs es

/-! ### The code-point order on strings is a linear order -/

theorem char_eq_of_toNat_eq {a b : Char} (h : a.toNat = b.toNat) : a = b := by
  apply Char.eq_of_val_eq
  apply UInt32.eq_of_toBitVec_eq
  apply BitVec.eq_of_toNat_eq
  exact h

theorem string_eq_of_data {a b : String} (h : a.data = b.data) : a = b := by
  cases a; cases b; simp_all

theorem charListLt_asymm :
    ∀ (a b : List Char), charListLt a b = true → charListLt b a = false
  | [], [], h => by simp [charListLt] at h
  | [], _ :: _, _ => by simp [charListLt]
  | _ :: _, [], h => by simp [charListLt] at h
  | a :: as, b :: bs, h => by
    by_cases h1 : a.toNat < b.toNat
    · have h2 : ¬ b.toNat < a.toNat := by omega
      simp [charListLt, h1, h2]
    · by_cases h2 : b.toNat < a.toNat
      · simp [charListLt, h1, h2] at h
      · simp only [charListLt, if_neg h1, if_neg h2] at h ⊢
        exact charListLt_asymm as bs h

theorem charListLt_trans :
    ∀ (a b c : List Char), charListLt a b = true → charListLt b c = true →
      charListLt a c = true
  | [], [], _, h1, _ => by simp [charListLt] at h1
  | [], _ :: _, [], _, h2 => by simp [charListLt] at h2
  | [], _ :: _, _ :: _, _, _ => by simp [charListLt]
  | _ :: _, [], _, h1, _ => by simp [charListLt] at h1
  | _ :: _, _ :: _, [], _, h2 => by simp [charListLt] at h2
  | a :: as, b :: bs, c :: cs, h1, h2 => by
    by_cases hab : a.toNat < b.toNat
    · by_cases hbc : b.toNat < c.toNat
      · have hac : a.toNat < c.toNat := by omega
        simp [charListLt, hac]
      · by_cases hcb : c.toNat < b.toNat
        · simp [charListLt, hbc, hcb] at h2
        · have hac : a.toNat < c.toNat := by omega
          simp [charListLt, hac]
    · by_cases hba : b.toNat < a.toNat
      · simp [charListLt, hab, hba] at h1
      · by_cases hbc : b.toNat < c.toNat
        · have hac : a.toNat < c.toNat := by omega
          simp [charListLt, hac]
        · by_cases hcb : c.toNat < b.toNat
          · simp [charListLt, hbc, hcb] at h2
          · simp only [charListLt, if_neg hab, if_neg hba] at h1
            simp only [charListLt, if_neg hbc, if_neg hcb] at h2
            have hac : ¬ a.toNat < c.toNat := by omega
            have hca : ¬ c.toNat < a.toNat := by omega
            simp only [charListLt, if_neg hac, if_neg hca]
            exact charListLt_trans as bs cs h1 h2

theorem charListLt_connex :
    ∀ (a b : List Char), charListLt a b = false → charListLt b a = false → a = b
  | [], [], _, _ => rfl
  | [], _ :: _, h1, _ => by simp [charListLt] at h1
  | _ :: _, [], _, h2 => by simp [charListLt] at h2
  | a :: as, b :: bs, h1, h2 => by
    by_cases hab : a.toNat < b.toNat
    · simp [charListLt, hab] at h1
    · by_cases hba : b.toNat < a.toNat
      · simp [charListLt, hba] at h2
      · simp only [charListLt, if_neg hab, if_neg hba] at h1 h2
        have hc : a = b := char_eq_of_toNat_eq (by omega)
        have ht : as = bs := charListLt_connex as bs h1 h2
        rw [hc, ht]

instance : IsTotal String pyLe := by
  constructor
  intro a b
  by_cases h : pyStrLt a b = true
  · exact Or.inl (charListLt_asymm _ _ h)
  · exact Or.inr (Bool.eq_false_iff.mpr h)

instance : IsTrans String pyLe := by
  constructor
  intro a b c h1 h2
  by_cases hca : pyStrLt c a = true
  · exfalso
    by_cases hab : pyStrLt a b = true
    · exact absurd (charListLt_trans _ _ _ hca hab) (by simpa using h2)
    · have : a.data = b.data :=
        charListLt_connex _ _ (Bool.eq_false_iff.mpr hab) h1
      have : pyStrLt c b = true := by
        unfold pyStrLt at hca ⊢
        rw [← this]
        exact hca
      simp [h2] at this
  · exact Bool.eq_false_iff.mpr hca

instance : IsAntisymm String pyLe := by
  constructor
  intro a b h1 h2
  exact string_eq_of_data (charListLt_connex _ _ h2 h1)

theorem sortStrings_perm (l : List String) : (sortStrings l).Perm l :=
  List.perm_insertionSort _ l

theorem sortStrings_sorted (l : List String) : List.Sorted pyLe (sortStrings l) :=
  List.sorted_insertionSort _ l

/-- Sorting depends only on the contents of the listing, not on the order
the operating system happens to return them in. -/
theorem sortStrings_eq_of_perm {l₁ l₂ : List String} (h : l₁.Perm l₂) :
    sortStrings l₁ = sortStrings l₂ :=
  List.eq_of_perm_of_sorted
    ((sortStrings_perm l₁).trans (h.trans (sortStrings_perm l₂).symm))
    (sortStrings_sorted l₁) (sortStrings_sorted l₂)

/-! ### Helper lemmas about the derived frame sequence and effect traces -/

theorem input_files_of_eq_sort {l : List String}
    (h : ∀ f ∈ l, isImageFile f = true) : input_files_of l = sortStrings l := by
  unfold input_files_of
  apply List.filter_eq_self.mpr
  intro a ha
  exact h a ((sortStrings_perm l).mem_iff.mp ha)

theorem input_files_of_eq_nil {l : List String}
    (h : ∀ f ∈ l, isImageFile f = false) : input_files_of l = [] := by
  unfold input_files_of
  apply List.filter_eq_nil_iff.mpr
  intro a ha
  simp [h a ((sortStrings_perm l).mem_iff.mp ha)]

theorem input_files_of_ne_nil {l : List String} {f : String}
    (hf : f ∈ l) (himg : isImageFile f = true) : input_files_of l ≠ [] := by
  intro h0
  have hmem : f ∈ input_files_of l := by
    unfold input_files_of
    rw [List.mem_filter]
    exact ⟨(sortStrings_perm l).mem_iff.mpr hf, himg⟩
  rw [h0] at hmem
  exact absurd hmem (List.not_mem_nil f)

theorem framesWritten_map_append {Frame : Type} (g : String → Frame) :
    ∀ l : List String,
      framesWritten (l.map (fun f => Effect.writeFrame (g f)) ++ [Effect.release])
        = l.map g
  | [] => rfl
  | f :: fs => by
    simp only [List.map_cons, List.cons_append, framesWritten, List.append_eq]
    rw [framesWritten_map_append g fs]

theorem openedCodecs_map_append {Frame : Type} (g : String → Frame) :
    ∀ l : List String,
      openedCodecs (l.map (fun f => Effect.writeFrame (g f)) ++ [Effect.release])
        = []
  | [] => rfl
  | f :: fs => by
    simp only [List.map_cons, List.cons_append, openedCodecs, List.append_eq]
    exact openedCodecs_map_append g fs

/-! ### The claims -/

/-- C1: for a directory whose N files all carry recognized image
extensions, a successful convert writes exactly N frames, one per input
file, in lexicographic filename order, each frame the decoded content of
the corresponding file. -/
theorem convert_writes_one_frame_per_image {Frame : Type}
    (decode : String → Frame) (shape : Frame → Nat × Nat × Nat)
    (listing : List String) (input_path output_path : String) (fps : Nat)
    (codec : Option String) (cd : String)
    (hne : listing ≠ [])
    (himg : ∀ f ∈ listing, isImageFile f = true)
    (hcodec : resolve_codec output_path codec = Except.ok cd) :
    ∃ tr, images_to_video decode shape listing input_path output_path fps codec
        = (tr, Except.ok ()) ∧
      framesWritten tr
        = (sortStrings listing).map (fun f => decode (input_path ++ "/" ++ f)) ∧
      (framesWritten tr).length = listing.length := by
  have hsort : input_files_of listing = sortStrings listing :=
    input_files_of_eq_sort himg
  have hsne : sortStrings listing ≠ [] := by
    intro h0
    have hp := sortStrings_perm listing
    rw [h0] at hp
    exact hne hp.symm.eq_nil
  obtain ⟨f0, rest, hcons⟩ := List.exists_cons_of_ne_nil hsne
  have hlen : (sortStrings listing).length = listing.length :=
    (sortStrings_perm listing).length_eq
  unfold images_to_video
  rw [hsort, hcons, hcodec]
  refine ⟨_, rfl, ?_, ?_⟩
  · simp only [framesWritten, framesWritten_map_append, hcons, List.map_cons]
  · simp only [framesWritten, framesWritten_map_append, List.length_cons,
      List.length_map]
    rw [← hlen, hcons]
    simp

/-- Witness for C1 at a concrete two-file directory. -/
theorem convert_writes_one_frame_per_image_witness :
    ∃ tr, images_to_video (fun p => p) (fun _ => (2, 3, 3))
        ["b.bmp", "a.bmp"] "d" "out.mp4" 30 (some "mp4v") = (tr, Except.ok ()) ∧
      framesWritten tr
        = (sortStrings ["b.bmp", "a.bmp"]).map (fun f => ("d" ++ "/" ++ f)) ∧
      (framesWritten tr).length = (["b.bmp", "a.bmp"] : List String).length :=
  convert_writes_one_frame_per_image (fun p => p) (fun _ => (2, 3, 3))
    ["b.bmp", "a.bmp"] "d" "out.mp4" 30 (some "mp4v") "mp4v"
    (by decide) (by decide) rfl

/-- C2: the extension list is documented (and specified) to recognize
JPEG2000 `.jp2`, PNG `.png` and the portable formats `.pgm`, `.ppm`,
`.pxm`, `.pnm`, but a missing comma merged `".jp2"` and `".png"` into the
single unreachable element `".jp2.png"`, and the four portable entries
lack their leading dot, so files with those extensions are never
recognized.  Extensions transcribed correctly, like `.bmp` and `.pbm`,
are recognized. -/
theorem image_format_list_misses_documented_extensions :
    isImageFile "x.png" = false ∧ isImageFile "x.jp2" = false ∧
    isImageFile "x.pgm" = false ∧ isImageFile "x.ppm" = false ∧
    isImageFile "x.pxm" = false ∧ isImageFile "x.pnm" = false ∧
    ".jp2.png" ∈ CV_IMAGE_FORMAT ∧ "pgm" ∈ CV_IMAGE_FORMAT ∧
    (".png" ∈ CV_IMAGE_FORMAT ↔ False) ∧
    isImageFile "x.bmp" = true ∧ isImageFile "x.pbm" = true := by
  decide

/-- C3: the case-insensitive lowering itself works (an uppercase `.BMP`
file is recognized, and `out.MP4` resolves to the `.mp4` codec entry
`mp4v`), but the claim's example `IMG1.PNG` is not recognized, because
`".png"` is missing from the extension list (merged into `".jp2.png"`). -/
theorem uppercase_png_not_recognized_but_lowering_works :
    isImageFile "IMG1.PNG" = false ∧
    isImageFile "IMG1.BMP" = true ∧
    pyToLower (splitext "IMG1.PNG").2 = ".png" ∧
    resolve_codec "out.MP4" none = Except.ok "mp4v" :=
  ⟨by decide, by decide, by decide, rfl⟩

/-- C4: on the listing `a.png`, `c.jpg`, `b.bmp` the claimed processed
order is `a.png`, `b.bmp`, `c.jpg` with 3 frames; the code sorts that way
but drops `a.png` (`".png"` is absent from the extension list), so only
2 frames are written. -/
theorem three_file_scenario_drops_png :
    sortStrings ["a.png", "c.jpg", "b.bmp"] = ["a.png", "b.bmp", "c.jpg"] ∧
    input_files_of ["a.png", "c.jpg", "b.bmp"] = ["b.bmp", "c.jpg"] ∧
    framesWritten (images_to_video (fun p => p) (fun _ => (2, 3, 3))
        ["a.png", "c.jpg", "b.bmp"] "d" "out.mp4" 30 none).1
      = ["d/b.bmp", "d/c.jpg"] :=
  ⟨by decide, by decide, rfl⟩

/-- C5: a directory listing with no recognized image file (including the
empty listing) makes convert raise `FileNotFoundError`, whatever the
other arguments are. -/
theorem convert_no_images_raises_not_found {Frame : Type}
    (decode : String → Frame) (shape : Frame → Nat × Nat × Nat)
    (listing : List String) (input_path output_path : String) (fps : Nat)
    (codec : Option String)
    (h : ∀ f ∈ listing, isImageFile f = false) :
    images_to_video decode shape listing input_path output_path fps codec
      = ([], Except.error (VideoError.fileNotFound
          ("No image sequence in path: " ++ input_path))) := by
  unfold images_to_video
  rw [input_files_of_eq_nil h]

/-- Witness for C5 at a directory holding only non-image files. -/
theorem convert_no_images_raises_not_found_witness :
    images_to_video (fun p => p) (fun _ => (2, 3, 3))
        ["notes.txt", "a.mp3"] "d" "out.mp4" 30 none
      = ([], Except.error (VideoError.fileNotFound
          ("No image sequence in path: " ++ "d"))) :=
  convert_no_images_raises_not_found (fun p => p) (fun _ => (2, 3, 3))
    ["notes.txt", "a.mp3"] "d" "out.mp4" 30 none (by decide)

/-- C6: with at least one recognized image in the directory and no
explicit codec, an output path whose lower-cased extension has no entry in
the codec table makes convert raise `ValueError`. -/
theorem convert_unmapped_extension_raises_value_error {Frame : Type}
    (decode : String → Frame) (shape : Frame → Nat × Nat × Nat)
    (listing : List String) (input_path output_path : String) (fps : Nat)
    (f : String) (hf : f ∈ listing) (himg : isImageFile f = true)
    (hext : DEFAULT_CODEC.lookup (pyToLower (pathSuffix output_path)) = none) :
    images_to_video decode shape listing input_path output_path fps none
      = ([], Except.error (VideoError.valueError
          ("Unsupported file extension name: " ++ pathSuffix output_path))) := by
  obtain ⟨f0, rest, hcons⟩ :=
    List.exists_cons_of_ne_nil (input_files_of_ne_nil hf himg)
  have hres : resolve_codec output_path none
      = Except.error (VideoError.valueError
          ("Unsupported file extension name: " ++ pathSuffix output_path)) := by
    unfold resolve_codec
    simp only [hext]
  unfold images_to_video
  rw [hcons, hres]

/-- Witness for C6: one bitmap in the directory, output `out.xyz`. -/
theorem convert_unmapped_extension_raises_value_error_witness :
    images_to_video (fun p => p) (fun _ => (2, 3, 3))
        ["a.bmp"] "d" "out.xyz" 30 none
      = ([], Except.error (VideoError.valueError
          ("Unsupported file extension name: " ++ pathSuffix "out.xyz"))) :=
  convert_unmapped_extension_raises_value_error (fun p => p) (fun _ => (2, 3, 3))
    ["a.bmp"] "d" "out.xyz" 30 "a.bmp" (by decide) (by decide) (by decide)

/-- C7: an explicit codec bypasses the codec-table lookup entirely: for
any output path, including one with an unmapped extension, the run
succeeds and the video writer is opened with exactly that codec. -/
theorem convert_explicit_codec_overrides_lookup {Frame : Type}
    (decode : String → Frame) (shape : Frame → Nat × Nat × Nat)
    (listing : List String) (input_path output_path : String) (fps : Nat)
    (c : String) (f : String) (hf : f ∈ listing) (himg : isImageFile f = true) :
    resolve_codec output_path (some c) = Except.ok c ∧
    ∃ tr, images_to_video decode shape listing input_path output_path fps (some c)
        = (tr, Except.ok ()) ∧ openedCodecs tr = [c] := by
  refine ⟨rfl, ?_⟩
  obtain ⟨f0, rest, hcons⟩ :=
    List.exists_cons_of_ne_nil (input_files_of_ne_nil hf himg)
  unfold images_to_video
  rw [hcons, show resolve_codec output_path (some c) = Except.ok c from rfl]
  refine ⟨_, rfl, ?_⟩
  simp only [openedCodecs, openedCodecs_map_append]

/-- Witness for C7: explicit codec `xvid` with the unmapped output
extension `.xyz`. -/
theorem convert_explicit_codec_overrides_lookup_witness :
    resolve_codec "out.xyz" (some "xvid") = Except.ok "xvid" ∧
    ∃ tr, images_to_video (fun p => p) (fun _ => (2, 3, 3))
        ["a.bmp"] "d" "out.xyz" 30 (some "xvid") = (tr, Except.ok ()) ∧
      openedCodecs tr = ["xvid"] :=
  convert_explicit_codec_overrides_lookup (fun p => p) (fun _ => (2, 3, 3))
    ["a.bmp"] "d" "out.xyz" 30 "xvid" "a.bmp" (by decide) (by decide)

/-- C8: convert is deterministic in the directory contents: two runs over
listings that hold the same files (in any listing order, since the code
sorts) with the same output path, frame rate and codec produce the same
effect trace and outcome, hence identical frame count and frame content. -/
theorem convert_deterministic {Frame : Type}
    (decode : String → Frame) (shape : Frame → Nat × Nat × Nat)
    (l₁ l₂ : List String) (input_path output_path : String) (fps : Nat)
    (codec : Option String) (h : l₁.Perm l₂) :
    images_to_video decode shape l₁ input_path output_path fps codec
      = images_to_video decode shape l₂ input_path output_path fps codec := by
  unfold images_to_video input_files_of
  rw [sortStrings_eq_of_perm h]

/-- Witness for C8: the same two files listed in either order. -/
theorem convert_deterministic_witness :
    images_to_video (fun p => p) (fun _ => (2, 3, 3))
        ["a.bmp", "b.bmp"] "d" "out.mp4" 30 none
      = images_to_video (fun p => p) (fun _ => (2, 3, 3))
        ["b.bmp", "a.bmp"] "d" "out.mp4" 30 none :=
  convert_deterministic (fun p => p) (fun _ => (2, 3, 3))
    ["a.bmp", "b.bmp"] ["b.bmp", "a.bmp"] "d" "out.mp4" 30 none (by decide)

/-- C9: the empty-sequence check runs before codec resolution: a
directory with no recognized images raises `FileNotFoundError`, never
`ValueError`, even when the output extension is also unmapped and no
codec was given. -/
theorem convert_empty_check_precedes_codec_check {Frame : Type}
    (decode : String → Frame) (shape : Frame → Nat × Nat × Nat)
    (listing : List String) (input_path output_path : String) (fps : Nat)
    (h : ∀ f ∈ listing, isImageFile f = false)
    (_hext : DEFAULT_CODEC.lookup (pyToLower (pathSuffix output_path)) = none) :
    images_to_video decode shape listing input_path output_path fps none
      = ([], Except.error (VideoError.fileNotFound
          ("No image sequence in path: " ++ input_path))) ∧
    ∀ m, (images_to_video decode shape listing input_path output_path fps none).2
        ≠ Except.error (VideoError.valueError m) := by
  have heq : images_to_video decode shape listing input_path output_path fps none
      = ([], Except.error (VideoError.fileNotFound
          ("No image sequence in path: " ++ input_path))) := by
    unfold images_to_video
    rw [input_files_of_eq_nil h]
  refine ⟨heq, ?_⟩
  intro m hm
  rw [heq] at hm
  simp at hm

/-- Witness for C9: non-image file and unmapped output extension. -/
theorem convert_empty_check_precedes_codec_check_witness :
    images_to_video (fun p => p) (fun _ => (2, 3, 3))
        ["notes.txt"] "d" "out.xyz" 30 none
      = ([], Except.error (VideoError.fileNotFound
          ("No image sequence in path: " ++ "d"))) ∧
    ∀ m, (images_to_video (fun p : String => p) (fun _ => (2, 3, 3))
        ["notes.txt"] "d" "out.xyz" 30 none).2
        ≠ Except.error (VideoError.valueError m) :=
  convert_empty_check_precedes_codec_check (fun p => p) (fun _ => (2, 3, 3))
    ["notes.txt"] "d" "out.xyz" 30 (by decide) (by decide)

/-- Either the error paths perform no effect, or the run succeeded:
`images_to_video` raises both of its exceptions before `os.makedirs` and
before the `cv2.VideoWriter` is opened. -/
theorem convert_trace_nil_or_ok {Frame : Type}
    (decode : String → Frame) (shape : Frame → Nat × Nat × Nat)
    (listing : List String) (input_path output_path : String) (fps : Nat)
    (codec : Option String) :
    (images_to_video decode shape listing input_path output_path fps codec).1 = []
    ∨ (images_to_video decode shape listing input_path output_path fps codec).2
        = Except.ok () := by
  unfold images_to_video
  cases hi : input_files_of listing with
  | nil => left; rfl
  | cons f0 rest =>
    cases hr : resolve_codec output_path codec with
    | error e => left; rfl
    | ok c => right; rfl

/-- C10: when convert fails with either error, no filesystem side effect
has occurred: the effect trace of a failing run is empty, so no parent
directory was created and the output file was never opened. -/
theorem convert_errors_precede_side_effects {Frame : Type}
    (decode : String → Frame) (shape : Frame → Nat × Nat × Nat)
    (listing : List String) (input_path output_path : String) (fps : Nat)
    (codec : Option String) (e : VideoError)
    (h : (images_to_video decode shape listing input_path output_path fps codec).2
        = Except.error e) :
    (images_to_video decode shape listing input_path output_path fps codec).1
      = [] := by
  rcases convert_trace_nil_or_ok decode shape listing input_path output_path fps
      codec with h1 | h2
  · exact h1
  · rw [h2] at h
    simp at h

/-- Witness for C10: the failing empty-directory run has an empty effect
trace. -/
theorem convert_errors_precede_side_effects_witness :
    (images_to_video (fun p : String => p) (fun _ => (2, 3, 3))
        [] "d" "out.mp4" 30 none).1 = [] :=
  convert_errors_precede_side_effects (fun p => p) (fun _ => (2, 3, 3))
    [] "d" "out.mp4" 30 none
    (VideoError.fileNotFound ("No image sequence in path: " ++ "d")) rfl

end VideoPy
